import Mathlib

/-!
Verification of the schej.it event reconciliation and notification-trigger
engine (`server/routes/events.go`) against its specification.

The Go handlers are embedded as pure Lean functions over an explicit store
(a list of events standing for the `events` Mongo collection).  Side effects
(scheduled reminder tasks, cancelled tasks, invite emails, notification
emails, persistence writes) are returned as data in each handler's result so
that theorems can count them.  MongoDB ObjectIDs are modelled as their
24-character hex strings; `primitive.NilObjectID` is the all-zero hex string,
so `ObjectID.Hex` and `utils.StringToObjectID` are both the identity here.
User-directory lookups (`db.GetUserById`) only influence the *content* of
outgoing emails, never whether a trigger fires, so they are not modelled.
-/

namespace Schej

/-- ObjectIDs are modelled as their 24-character hex strings. -/
abbrev ObjectID := String

/-- `primitive.NilObjectID` — the all-zero ObjectID, whose hex string is 24 zeros. -/
def nilObjectID : ObjectID := "000000000000000000000000"

/-- `models.EventType` — the three kinds of events. -/
inductive EventType
  | SPECIFIC_DATES
  | DOW
  | GROUP
deriving DecidableEq, Repr

/-- `models.EnabledCalendar` — opaque passthrough data carried inside a response;
never inspected by the handlers in `events.go`, so modelled as an opaque string. -/
structure EnabledCalendar where
  calendarId : String
deriving DecidableEq, Repr

/-- `models.Response` — one participant's availability submission.
`name` is set for guests, `userId` for signed-in users; `availability` is the
list of marked timestamps (`primitive.DateTime`, an int64). -/
structure Response where
  name : String := ""
  userId : ObjectID := nilObjectID
  availability : List Int := []
  useCalendarAvailability : Option Bool := none
  enabledCalendars : Option (List EnabledCalendar) := none
deriving DecidableEq, Repr

/-- `models.Remindee` — a contact scheduled to receive reminder emails.
`Responded` is a `*bool` in Go, always populated by the handlers, so a plain
`Bool` here. -/
structure Remindee where
  email : String
  taskIds : List String
  responded : Bool
deriving DecidableEq, Repr

/-- `models.Attendee` — an invited participant of a group event. -/
structure Attendee where
  email : String
  declined : Bool
deriving DecidableEq, Repr

/-- The `responses` field of an event: a BSON document mapping participant key
(signed-in user id hex, or guest display name) to that participant's
`Response`.  Modelled as an association list with unique keys (the data-model
invariant "Keys are unique"). -/
abbrev Responses := List (String × Response)

/-- `models.Event` — the root aggregate.  `duration` (`*float32` in Go) is
carried opaquely and never computed on, so its numeric type is irrelevant. -/
structure Event where
  id : ObjectID
  ownerId : ObjectID
  name : String
  duration : Option Int := none
  dates : List Int := []
  notificationsEnabled : Option Bool := none
  type : EventType
  responses : Responses := []
  remindees : Option (List Remindee) := none
  attendees : Option (List Attendee) := none
deriving DecidableEq, Repr

/-! ### Utility functions (`schej.it/server/utils`) -/

/-- `utils.Coalesce` on a `*[]T`: dereference a possibly-nil pointer, giving the
zero value (empty list) when nil. -/
def Coalesce {α : Type} (o : Option (List α)) : List α := o.getD []

/-- `utils.Coalesce` on a `*bool`: dereference, giving `false` when nil. -/
def CoalesceB (o : Option Bool) : Bool := o.getD false

/-- A value paired with its index, as produced by `utils.FindAddedRemovedKept`. -/
structure IndexedString where
  Value : String
  Index : Nat
deriving DecidableEq, Repr

/-- Modelled from the spec: `utils.FindAddedRemovedKept` (the Diff Engine, §4.1),
whose body is outside the given sources.  Argument order follows the call sites
in `editEvent`: the first argument is the submitted (new) list, the second the
stored (old) list.  `added` = entries of the new list absent from the old list,
paired with their index in the new list; `removed` = entries of the old list
absent from the new list, paired with their index in the old list; `kept` =
entries present in both, paired with their index in the old list. -/
def FindAddedRemovedKept (newList oldList : List String) :
    List IndexedString × List IndexedString × List IndexedString :=
  ( (newList.enum.filter (fun p => !(oldList.contains p.2))).map (fun p => ⟨p.2, p.1⟩)
  , (oldList.enum.filter (fun p => !(newList.contains p.2))).map (fun p => ⟨p.2, p.1⟩)
  , (oldList.enum.filter (fun p => newList.contains p.2)).map (fun p => ⟨p.2, p.1⟩) )

/-! ### Response-map operations -/

/-- Whether the responses document already holds an entry for `k`
(the `_, userHasResponded := event.Responses[userIdString]` lookup). -/
def responsesContainsKey (rs : Responses) (k : String) : Bool :=
  rs.any (fun p => p.1 == k)

/-- Look up the response stored under key `k`. -/
def getResponse (rs : Responses) (k : String) : Option Response :=
  (rs.find? (fun p => p.1 == k)).map Prod.snd

/-- Modelled from the spec: `utils.UpdateEventResponseAggregation` (§4.3), whose
body is outside the given sources — "sets `event.responses[participantKey] =
response`, full overwrite, regardless of whether the key existed", touching
only that one key.  On an association list with unique keys this replaces the
existing entry in place, or appends a new one. -/
def setResponse (rs : Responses) (k : String) (v : Response) : Responses :=
  match rs with
  | [] => [(k, v)]
  | p :: rest => if p.1 == k then (k, v) :: rest else p :: setResponse rest k v

/-- Modelled from the spec: `utils.DeleteEventResponseAggregation` (§4.3), whose
body is outside the given sources — "removes exactly one key from the map;
absent key is a no-op success". -/
def deleteResponse (rs : Responses) (k : String) : Responses :=
  rs.filter (fun p => !(p.1 == k))

/-! ### The store -/

/-- The `events` collection: a list of stored events (ids unique in practice). -/
abbrev Store := List Event

/-- `db.GetEventById` — load the event with the given id, `none` when absent. -/
def GetEventById (s : Store) (id : String) : Option Event :=
  s.find? (fun e => e.id == id)

/-- A targeted update of the stored document with the given id
(`db.EventsCollection.UpdateByID` / `UpdateOne` on `_id`): the update function
is applied to the *stored* document. -/
def updateStoredEvent (s : Store) (id : ObjectID) (f : Event → Event) : Store :=
  s.map (fun e => if e.id == id then f e else e)

/-- HTTP statuses the handlers can answer with. -/
inductive Status
  | ok
  | created
  | badRequest
  | unauthorized
  | forbidden
  | notFound
deriving DecidableEq, Repr

/-! ### `POST /events/:eventId/response` — `updateEventResponse` -/

/-- Request body of `updateEventResponse`. -/
structure UpdateResponsePayload where
  availability : List Int
  guest : Bool
  name : String := ""
  useCalendarAvailability : Option Bool := none
  enabledCalendars : Option (List EnabledCalendar) := none
deriving DecidableEq, Repr

/-- The participant key and `Response` document a call resolves to: for a guest
submission the key is the submitted name; for a signed-in submission the key is
the session's user id (and a missing session means Unauthorized, `none` here).
Mirrors the `if *payload.Guest { ... } else { ... }` block of
`updateEventResponse`. -/
def responseIdentity (sessionUserId : Option String)
    (payload : UpdateResponsePayload) : Option (String × Response) :=
  if payload.guest then
    some (payload.name,
      { name := payload.name, availability := payload.availability })
  else
    match sessionUserId with
    | none => none
    | some uid =>
      some (uid,
        { userId := uid
          availability := payload.availability
          useCalendarAvailability := payload.useCalendarAvailability
          enabledCalendars := payload.enabledCalendars })

/-- Result of `updateEventResponse`: status, updated store, and how many
first-response notification emails to the owner were dispatched. -/
structure UpdateResponseResult where
  status : Status
  store : Store
  notificationsTriggered : Nat
deriving DecidableEq, Repr

/-- Embedding of `updateEventResponse`: load the event (404 when absent),
resolve the participant key and response (401 for a signed-out non-guest),
record whether the key already had an entry, apply the per-key overwrite to the
stored document, and dispatch the first-response email when notifications are
enabled, the key had no prior entry, and the key differs from the owner's id
hex.  Note the source has no event-type check on this trigger. -/
def updateEventResponse (s : Store) (sessionUserId : Option String)
    (eventId : String) (payload : UpdateResponsePayload) : UpdateResponseResult :=
  match GetEventById s eventId with
  | none => ⟨.notFound, s, 0⟩
  | some event =>
    match responseIdentity sessionUserId payload with
    | none => ⟨.unauthorized, s, 0⟩
    | some (userIdString, response) =>
      let userHasResponded := responsesContainsKey event.responses userIdString
      let s' := updateStoredEvent s eventId
        (fun e => { e with responses := setResponse e.responses userIdString response })
      let notif := CoalesceB event.notificationsEnabled
        && !userHasResponded && userIdString != event.ownerId
      ⟨.ok, s', if notif then 1 else 0⟩

/-! ### `DELETE /events/:eventId/response` — `deleteEventResponse` -/

/-- Request body of `deleteEventResponse`. -/
structure DeleteResponsePayload where
  userId : String := ""
  guest : Bool
  name : String := ""
deriving DecidableEq, Repr

/-- Result of `deleteEventResponse`. -/
structure DeleteResponseResult where
  status : Status
  store : Store
deriving DecidableEq, Repr

/-- Embedding of `deleteEventResponse`: load the event (404 when absent).  For a
guest-flagged request the deleted key is the submitted name — the source
performs no permission check on this path.  For a signed-in request (401 when
no session), deleting a key other than one's own id requires the actor to be
the event owner, else 403 with no write. -/
def deleteEventResponse (s : Store) (sessionUserId : Option String)
    (eventId : String) (payload : DeleteResponsePayload) : DeleteResponseResult :=
  match GetEventById s eventId with
  | none => ⟨.notFound, s⟩
  | some event =>
    if payload.guest then
      ⟨.ok, updateStoredEvent s eventId
        (fun e => { e with responses := deleteResponse e.responses payload.name })⟩
    else
      match sessionUserId with
      | none => ⟨.unauthorized, s⟩
      | some uid =>
        if payload.userId != uid && event.ownerId != uid then
          ⟨.forbidden, s⟩
        else
          ⟨.ok, updateStoredEvent s eventId
            (fun e => { e with responses := deleteResponse e.responses payload.userId })⟩

/-! ### `POST /events/:eventId/responded` — `userResponded` -/

/-- Result of `userResponded`: status, updated store, the task ids handed to
`gcloud.DeleteEmailTask`, how many documents were written back, and how many
"everyone responded" emails were sent to the owner. -/
structure UserRespondedResult where
  status : Status
  store : Store
  cancelledTaskIds : List String
  persistenceWrites : Nat
  allRespondedNotifications : Nat
deriving DecidableEq, Repr

/-- Junk value for out-of-range list indexing (never reached on the source's
in-range indices). -/
def defaultRemindee : Remindee := ⟨"", [], false⟩

/-- Embedding of `userResponded`: load the event (404 when absent; 404 when it
has no remindee list or no remindee carries the submitted email — `utils.Find`
returns the first matching index).  If that remindee already responded, return
200 with no write, no cancellation and no email.  Otherwise set exactly that
remindee's flag, cancel each of its task ids, write the document back, and
email the owner iff every remindee in the resulting list has responded. -/
def userResponded (s : Store) (eventId : String) (email : String) :
    UserRespondedResult :=
  match GetEventById s eventId with
  | none => ⟨.notFound, s, [], 0, 0⟩
  | some event =>
    match event.remindees with
    | none => ⟨.notFound, s, [], 0, 0⟩
    | some remindees =>
      match remindees.findIdx? (fun r => r.email == email) with
      | none => ⟨.notFound, s, [], 0, 0⟩
      | some index =>
        let r := remindees.getD index defaultRemindee
        if r.responded then
          ⟨.ok, s, [], 0, 0⟩
        else
          let updated := remindees.set index { r with responded := true }
          let event' := { event with remindees := some updated }
          let s' := updateStoredEvent s event.id (fun _ => event')
          let everyoneResponded := updated.all (fun rr => rr.responded)
          ⟨.ok, s', r.taskIds, 1, if everyoneResponded then 1 else 0⟩

/-! ### `POST /events/:eventId/decline` — `declineInvite` -/

/-- Result of `declineInvite`. -/
structure DeclineResult where
  status : Status
  store : Store
deriving DecidableEq, Repr

/-- Junk value for out-of-range list indexing (never reached on the source's
in-range indices). -/
def defaultAttendee : Attendee := ⟨"", false⟩

/-- Embedding of `declineInvite` (behind `AuthRequired`, so the caller's user
email is an argument): load the event (404 when absent), require `GROUP` type
(400 otherwise), locate the caller in the attendee list — the source's loop has
no break, so the *last* matching index wins — 404 when absent, then set that
attendee's declined flag and write the document back. -/
def declineInvite (s : Store) (authUserEmail : String) (eventId : String) :
    DeclineResult :=
  match GetEventById s eventId with
  | none => ⟨.notFound, s⟩
  | some event =>
    if event.type != .GROUP then ⟨.badRequest, s⟩
    else
      let attendees := Coalesce event.attendees
      let matchIdxs := (attendees.enum.filter
        (fun p => p.2.email == authUserEmail)).map Prod.fst
      match matchIdxs.getLast? with
      | none => ⟨.notFound, s⟩
      | some index =>
        let a := attendees.getD index defaultAttendee
        let event' := { event with
          attendees := some (attendees.set index { a with declined := true }) }
        ⟨.ok, updateStoredEvent s event.id (fun _ => event')⟩

/-! ### `DELETE /events/:eventId` — `deleteEvent` -/

/-- Whether a character is a hexadecimal digit. -/
def isHexDigit (c : Char) : Bool :=
  c.isDigit || ('a' ≤ c && c ≤ 'f') || ('A' ≤ c && c ≤ 'F')

/-- `primitive.ObjectIDFromHex` succeeds exactly on 24-character hex strings. -/
def isValidObjectIDHex (s : String) : Bool :=
  s.length == 24 && s.data.all isHexDigit

/-- Result of `deleteEvent`. -/
structure DeleteEventResult where
  status : Status
  store : Store
deriving DecidableEq, Repr

/-- Embedding of `deleteEvent` (behind `AuthRequired`): 400 on a malformed id;
otherwise `DeleteOne` on the filter `{_id: objectId, ownerId: user.Id}` — it
removes the first matching document, or nothing at all when none matches, and
the handler answers 200 in either case (no existence check, no 404). -/
def deleteEvent (s : Store) (authUserId : ObjectID) (eventId : String) :
    DeleteEventResult :=
  if !(isValidObjectIDHex eventId) then ⟨.badRequest, s⟩
  else
    match s.findIdx? (fun e => e.id == eventId && e.ownerId == authUserId) with
    | none => ⟨.ok, s⟩
    | some i => ⟨.ok, s.eraseIdx i⟩

/-! ### `POST /events/:eventId/duplicate` — `duplicateEvent` -/

/-- Request body of `duplicateEvent`. -/
structure DuplicatePayload where
  eventName : String
  copyAvailability : Bool
deriving DecidableEq, Repr

/-- Result of `duplicateEvent`. -/
structure DuplicateResult where
  status : Status
  store : Store
  insertedId : Option ObjectID
deriving DecidableEq, Repr

/-- Embedding of `duplicateEvent` (behind `AuthRequired`): load the event — the
source answers 400, not 404, when it is absent — require the caller to be the
owner (403 otherwise), then insert a copy with the submitted name and either
the copied or an emptied responses map.  The source clears `event.Id` to
`NilObjectID` before `InsertOne`; `freshId` is the identifier the store assigns
on insert, modelled from the spec (`insertEvent(Event) -> id` hands out a fresh
identifier, §3 "assigned at creation"). -/
def duplicateEvent (s : Store) (authUserId : ObjectID) (eventId : String)
    (payload : DuplicatePayload) (freshId : ObjectID) : DuplicateResult :=
  match GetEventById s eventId with
  | none => ⟨.badRequest, s, none⟩
  | some event =>
    if event.ownerId != authUserId then ⟨.forbidden, s, none⟩
    else
      let event' := { event with
        id := freshId
        name := payload.eventName
        responses := if !payload.copyAvailability then [] else event.responses }
      ⟨.created, s ++ [event'], some freshId⟩

/-! ### `GET /events/:eventId` — `getEvent` -/

/-- Result of `getEvent`. -/
structure GetResult where
  status : Status
  store : Store
deriving DecidableEq, Repr

/-- Embedding of `getEvent`: load the event, 404 when absent.  The handler's
response-body population of per-response display names is presentation only
and writes nothing back to the store. -/
def getEvent (s : Store) (eventId : String) : GetResult :=
  match GetEventById s eventId with
  | none => ⟨.notFound, s⟩
  | some _ => ⟨.ok, s⟩

/-! ### `PUT /events/:eventId` — `editEvent` -/

/-- Request body of `editEvent`. -/
structure EditPayload where
  name : String
  duration : Option Int := none
  dates : List Int := []
  type : EventType
  notificationsEnabled : Option Bool := none
  remindees : List String := []
  attendees : List String := []
deriving DecidableEq, Repr

/-- Result of `editEvent`: status, updated store, the reminder tasks created by
`gcloud.CreateEmailTask` (email with its task ids), the task ids handed to
`gcloud.DeleteEmailTask`, and the recipients of invite emails. -/
structure EditResult where
  status : Status
  store : Store
  scheduledTasks : List (String × List String)
  cancelledTaskIds : List String
  inviteEmailsSent : List String
deriving DecidableEq, Repr

/-- The id the edit request acts as: the session's user id, or the nil
ObjectID for a signed-out caller (lines 191–199 of `events.go`). -/
def sessionOwnerId (sessionUserId : Option String) : ObjectID :=
  match sessionUserId with
  | some uid => uid
  | none => nilObjectID

/-- The state-transforming core of `editEvent`, after the event has been loaded
and the permission check passed: overwrite the scalar fields from the payload,
then reconcile the participant list selected by the *newly submitted* type.
Returns the rewritten event, the reminder tasks scheduled, the task ids
cancelled, and the invite-email recipients. -/
def applyEdit (event0 : Event) (payload : EditPayload)
    (sched : String → List String) :
    Event × List (String × List String) × List String × List String :=
  let event1 := { event0 with
    name := payload.name
    duration := payload.duration
    dates := payload.dates
    notificationsEnabled := payload.notificationsEnabled
    type := payload.type }
  let remBranch := event1.type == .DOW || event1.type == .SPECIFIC_DATES
  let origRemindees := Coalesce event1.remindees
  let rDiff := FindAddedRemovedKept payload.remindees
    (origRemindees.map (fun r => r.email))
  let updatedRemindees :=
    rDiff.2.2.map (fun k => origRemindees.getD k.Index defaultRemindee)
      ++ rDiff.1.map (fun a => Remindee.mk a.Value (sched a.Value) false)
  let scheduled := rDiff.1.map (fun a => (a.Value, sched a.Value))
  let cancelled := (rDiff.2.1.map
    (fun r => (origRemindees.getD r.Index defaultRemindee).taskIds)).flatten
  let event2 := if remBranch then
    { event1 with remindees := some updatedRemindees } else event1
  let groupBranch := event1.type == .GROUP
  let origAttendees := Coalesce event1.attendees
  let aDiff := FindAddedRemovedKept payload.attendees
    (origAttendees.map (fun a => a.email))
  let updatedAttendees :=
    aDiff.2.2.map (fun k => origAttendees.getD k.Index defaultAttendee)
      ++ aDiff.1.map (fun a => Attendee.mk a.Value false)
  let invites := aDiff.1.map (fun a => a.Value)
  let event3 := if groupBranch then
    { event2 with attendees := some updatedAttendees } else event2
  (event3,
    if remBranch then scheduled else [],
    if remBranch then cancelled else [],
    if groupBranch then invites else [])

/-- Embedding of `editEvent`.  `sched` stands for `gcloud.CreateEmailTask`, the
injected task-scheduling capability returning the task ids for an email.
Load the event (404 when absent); an owned event may only be edited by its
owner (403 otherwise, where a signed-out caller acts as the nil owner id);
apply `applyEdit` and write the rewritten document back. -/
def editEvent (s : Store) (sessionUserId : Option String) (eventId : String)
    (payload : EditPayload) (sched : String → List String) : EditResult :=
  match GetEventById s eventId with
  | none => ⟨.notFound, s, [], [], []⟩
  | some event0 =>
    if event0.ownerId != nilObjectID
        && event0.ownerId != sessionOwnerId sessionUserId then
      ⟨.forbidden, s, [], [], []⟩
    else
      let r := applyEdit event0 payload sched
      ⟨.ok, updateStoredEvent s r.1.id (fun _ => r.1), r.2.1, r.2.2.1, r.2.2.2⟩

/-! ### Concrete sample data, used by witnesses and counterexamples -/

/-- A well-formed event id. -/
def hexId1 : ObjectID := "aaaaaaaaaaaaaaaaaaaaaaaa"

/-- A second well-formed event id, distinct from `hexId1`. -/
def hexId2 : ObjectID := "bbbbbbbbbbbbbbbbbbbbbbbb"

/-- A signed-in user id acting as an event owner. -/
def ownerUser : ObjectID := "111111111111111111111111"

/-- A signed-in user id that owns nothing. -/
def otherUser : ObjectID := "222222222222222222222222"

/-- A sample guest response. -/
def sampleResponse1 : Response := { name := "alice", availability := [1, 2] }

/-- A second sample guest response. -/
def sampleResponse2 : Response := { name := "alice", availability := [3] }

/-- A group event with notifications enabled and no responses yet. -/
def sampleGroupEvent : Event :=
  { id := hexId1
    ownerId := ownerUser
    name := "offsite"
    type := .GROUP
    notificationsEnabled := some true
    responses := [] }

/-- A discrete event holding one guest response under the key `"victim"`. -/
def sampleEventWithVictim : Event :=
  { id := hexId1
    ownerId := ownerUser
    name := "standup"
    type := .SPECIFIC_DATES
    responses := [("victim", sampleResponse1)] }

/-- A discrete event with two remindees, one of whom has already responded. -/
def sampleRemindeeEvent : Event :=
  { id := hexId1
    ownerId := ownerUser
    name := "sync"
    type := .SPECIFIC_DATES
    remindees := some [⟨"a@x.io", ["t1", "t2"], false⟩, ⟨"b@x.io", ["t3"], true⟩] }

/-- A discrete event with one response, one remindee and an attendee list, used
to exercise `editEvent` and `duplicateEvent`. -/
def sampleRichEvent : Event :=
  { id := hexId1
    ownerId := ownerUser
    name := "planning"
    duration := some 30
    dates := [100, 200]
    notificationsEnabled := some true
    type := .SPECIFIC_DATES
    responses := [("carol", sampleResponse1)]
    remindees := some [⟨"a@x.io", ["t1"], true⟩, ⟨"b@x.io", ["t2"], false⟩]
    attendees := some [⟨"c@x.io", false⟩] }

/-- A group event with two attendees, used to exercise the `GROUP` branch of
`editEvent`. -/
def sampleGroupEvent2 : Event :=
  { id := hexId2
    ownerId := ownerUser
    name := "availability"
    type := .GROUP
    remindees := some [⟨"a@x.io", ["t1"], true⟩]
    attendees := some [⟨"c@x.io", true⟩, ⟨"d@x.io", false⟩] }

/-- A task scheduler stub handing out one task id per email. -/
def sampleSched (email : String) : List String := ["task-" ++ email]

/-- A discrete edit payload keeping `"a@x.io"`, dropping `"b@x.io"`, adding
`"c@x.io"`, while also (vainly) carrying an attendee email. -/
def sampleEditPayloadDiscrete : EditPayload :=
  { name := "edited"
    type := .SPECIFIC_DATES
    remindees := ["a@x.io", "c@x.io"]
    attendees := ["z@x.io"] }

/-- A group edit payload keeping `"c@x.io"`, dropping `"d@x.io"`, adding
`"e@x.io"`, while also (vainly) carrying a remindee email. -/
def sampleEditPayloadGroup : EditPayload :=
  { name := "edited2"
    type := .GROUP
    remindees := ["q@x.io"]
    attendees := ["c@x.io", "e@x.io"] }

/-! ## Lemmas about the Diff Engine -/

/-- Projecting the values out of a filtered enumeration recovers a plain filter. -/
theorem enumFrom_filter_map_snd {α : Type} (c : α → Bool) (l : List α) :
    ∀ n : Nat,
      ((List.enumFrom n l).filter (fun p => c p.2)).map (fun p => p.2) = l.filter c := by
  induction l with
  | nil => intro n; rfl
  | cons a t ih =>
    intro n
    simp only [List.enumFrom]
    cases h : c a <;> simp [List.filter_cons, h, ih (n + 1)]

/-- The values of the `added` component are the new-list entries absent from the
old list, in order. -/
theorem added_values (newL oldL : List String) :
    (FindAddedRemovedKept newL oldL).1.map IndexedString.Value
      = newL.filter (fun v => !(oldL.contains v)) := by
  simp only [FindAddedRemovedKept, List.map_map, Function.comp_def]
  exact enumFrom_filter_map_snd (fun v => !(oldL.contains v)) newL 0

/-- The values of the `removed` component are the old-list entries absent from
the new list, in order. -/
theorem removed_values (newL oldL : List String) :
    (FindAddedRemovedKept newL oldL).2.1.map IndexedString.Value
      = oldL.filter (fun v => !(newL.contains v)) := by
  simp only [FindAddedRemovedKept, List.map_map, Function.comp_def]
  exact enumFrom_filter_map_snd (fun v => !(newL.contains v)) oldL 0

/-- The values of the `kept` component are the old-list entries present in the
new list, in order. -/
theorem kept_values (newL oldL : List String) :
    (FindAddedRemovedKept newL oldL).2.2.map IndexedString.Value
      = oldL.filter (fun v => newL.contains v) := by
  simp only [FindAddedRemovedKept, List.map_map, Function.comp_def]
  exact enumFrom_filter_map_snd (fun v => newL.contains v) oldL 0

/-- Every entry of a diff component carries the index of its value in the list
it was enumerated from. -/
theorem mem_diff_index {l : List String} {c : Nat × String → Bool}
    {iv : IndexedString}
    (h : iv ∈ (l.enum.filter c).map (fun p => IndexedString.mk p.2 p.1)) :
    l[iv.Index]? = some iv.Value := by
  obtain ⟨p, hp, rfl⟩ := List.mem_map.1 h
  exact List.mem_enum_iff_getElem?.1 (List.mem_filter.1 hp).1

/-- Conversely, a list entry whose enumerated pair passes the filter appears in
the corresponding diff component. -/
theorem mem_diff_of_getElem? {l : List String} {c : Nat × String → Bool}
    {i : Nat} {a : String} (hget : l[i]? = some a) (hc : c (i, a) = true) :
    IndexedString.mk a i ∈ (l.enum.filter c).map (fun p => IndexedString.mk p.2 p.1) :=
  List.mem_map.2 ⟨(i, a), List.mem_filter.2 ⟨List.mem_enum_iff_getElem?.2 hget, hc⟩, rfl⟩

/-- C6: for duplicate-free lists `A` (old) and `B` (new), the diff used by the
reconciler satisfies: the member set of `added` together with `kept` equals the
member set of `B`; the member set of `removed` together with `kept` equals the
member set of `A`; every `removed` and `kept` entry is paired with its index in
`A`; every `added` entry is paired with its index in `B`.  (Recall the call
sites pass the new list first: the diff is `FindAddedRemovedKept B A`.) -/
theorem findAddedRemovedKept_diff_correct (A B : List String)
    (hA : A.Nodup) (hB : B.Nodup) :
    (∀ x : String,
        (x ∈ (FindAddedRemovedKept B A).1.map IndexedString.Value
          ∨ x ∈ (FindAddedRemovedKept B A).2.2.map IndexedString.Value) ↔ x ∈ B)
    ∧ (∀ x : String,
        (x ∈ (FindAddedRemovedKept B A).2.1.map IndexedString.Value
          ∨ x ∈ (FindAddedRemovedKept B A).2.2.map IndexedString.Value) ↔ x ∈ A)
    ∧ (∀ iv ∈ (FindAddedRemovedKept B A).2.1, A[iv.Index]? = some iv.Value)
    ∧ (∀ iv ∈ (FindAddedRemovedKept B A).2.2, A[iv.Index]? = some iv.Value)
    ∧ (∀ iv ∈ (FindAddedRemovedKept B A).1, B[iv.Index]? = some iv.Value) := by
  refine ⟨?_, ?_, ?_, ?_, ?_⟩
  · intro x
    rw [added_values, kept_values]
    simp only [List.mem_filter]
    by_cases hxA : x ∈ A <;> by_cases hxB : x ∈ B <;> simp [hxA, hxB]
  · intro x
    rw [removed_values, kept_values]
    simp only [List.mem_filter]
    by_cases hxA : x ∈ A <;> by_cases hxB : x ∈ B <;> simp [hxA, hxB]
  · intro iv hiv
    exact mem_diff_index hiv
  · intro iv hiv
    exact mem_diff_index hiv
  · intro iv hiv
    exact mem_diff_index hiv

/-- Witness for C6 at `A = ["a", "b"]`, `B = ["b", "c"]`. -/
theorem findAddedRemovedKept_diff_correct_witness :
    (["a", "b"] : List String).Nodup ∧ (["b", "c"] : List String).Nodup
    ∧ ((∀ x : String,
        (x ∈ (FindAddedRemovedKept ["b", "c"] ["a", "b"]).1.map IndexedString.Value
          ∨ x ∈ (FindAddedRemovedKept ["b", "c"] ["a", "b"]).2.2.map IndexedString.Value)
          ↔ x ∈ (["b", "c"] : List String))
    ∧ (∀ x : String,
        (x ∈ (FindAddedRemovedKept ["b", "c"] ["a", "b"]).2.1.map IndexedString.Value
          ∨ x ∈ (FindAddedRemovedKept ["b", "c"] ["a", "b"]).2.2.map IndexedString.Value)
          ↔ x ∈ (["a", "b"] : List String))
    ∧ (∀ iv ∈ (FindAddedRemovedKept ["b", "c"] ["a", "b"]).2.1,
        (["a", "b"] : List String)[iv.Index]? = some iv.Value)
    ∧ (∀ iv ∈ (FindAddedRemovedKept ["b", "c"] ["a", "b"]).2.2,
        (["a", "b"] : List String)[iv.Index]? = some iv.Value)
    ∧ (∀ iv ∈ (FindAddedRemovedKept ["b", "c"] ["a", "b"]).1,
        (["b", "c"] : List String)[iv.Index]? = some iv.Value)) :=
  ⟨by decide, by decide,
    findAddedRemovedKept_diff_correct ["a", "b"] ["b", "c"] (by decide) (by decide)⟩

/-! ## Lemmas about the store -/

/-- A loaded event carries the id it was looked up by. -/
theorem GetEventById_id {s : Store} {id : String} {e : Event}
    (h : GetEventById s id = some e) : e.id = id := by
  have := List.find?_some h
  simpa using this

/-- A loaded event is a member of the store. -/
theorem GetEventById_mem {s : Store} {id : String} {e : Event}
    (h : GetEventById s id = some e) : e ∈ s :=
  List.mem_of_find?_eq_some h

/-- A targeted update rewrites the document a subsequent load observes. -/
theorem GetEventById_updateStoredEvent {s : Store} {id : String} {e : Event}
    {f : Event → Event} (hf : (f e).id = e.id)
    (h : GetEventById s id = some e) :
    GetEventById (updateStoredEvent s id f) id = some (f e) := by
  induction s with
  | nil => simp [GetEventById] at h
  | cons a t ih =>
    simp only [GetEventById] at h ⊢
    simp only [updateStoredEvent, List.map_cons]
    by_cases hb : a.id = id
    · have hbb : (a.id == id) = true := by simpa using hb
      rw [List.find?_cons, hbb] at h
      have h' : e = a := (Option.some.inj h).symm
      subst h'
      have hfb : ((f e).id == id) = true := by rw [hf]; exact hbb
      rw [if_pos hbb, List.find?_cons, hfb]
    · have hbb : (a.id == id) = false := by simpa using hb
      rw [List.find?_cons, hbb] at h
      have hrec := ih h
      simp only [GetEventById, updateStoredEvent] at hrec
      rw [if_neg (by simp [hbb]), List.find?_cons, hbb]
      exact hrec

/-- A store extension on the right does not change what an id already present
loads to. -/
theorem GetEventById_append_left {s l : Store} {id : String} {e : Event}
    (h : GetEventById s id = some e) :
    GetEventById (s ++ l) id = some e := by
  simp only [GetEventById, List.find?_append] at h ⊢
  rw [h]
  rfl

/-- Looking an id up in an extended store falls through to the extension when
the original store does not contain it. -/
theorem GetEventById_append_right {s l : Store} {id : String}
    (h : GetEventById s id = none) :
    GetEventById (s ++ l) id = GetEventById l id := by
  simp only [GetEventById, List.find?_append] at h ⊢
  rw [h]
  rfl

/-! ## Lemmas about the response map -/

/-- Setting a key makes it retrievable with the written value. -/
theorem getResponse_setResponse_self (rs : Responses) (k : String) (v : Response) :
    getResponse (setResponse rs k v) k = some v := by
  induction rs with
  | nil => simp [setResponse, getResponse]
  | cons p rest ih =>
    by_cases h : p.1 = k
    · have hb : (p.1 == k) = true := by simpa using h
      simp only [setResponse]
      rw [if_pos hb]
      simp [getResponse]
    · have hb : (p.1 == k) = false := by simpa using h
      simp only [setResponse]
      rw [if_neg (by simp [hb])]
      simp only [getResponse, List.find?_cons, hb]
      exact ih

/-- Setting a key leaves every other key's stored value untouched. -/
theorem getResponse_setResponse_ne (rs : Responses) (k k' : String) (v : Response)
    (h : k' ≠ k) : getResponse (setResponse rs k v) k' = getResponse rs k' := by
  induction rs with
  | nil =>
    have hb : (k == k') = false := by simpa using Ne.symm h
    simp [setResponse, getResponse, hb]
  | cons p rest ih =>
    by_cases hp : p.1 = k
    · have hbp : (p.1 == k) = true := by simpa using hp
      have hb1 : (k == k') = false := by simpa using Ne.symm h
      have hb2 : (p.1 == k') = false := by
        simpa [hp] using Ne.symm h
      simp only [setResponse]
      rw [if_pos hbp]
      simp [getResponse, List.find?_cons, hb1, hb2]
    · have hbp : (p.1 == k) = false := by simpa using hp
      simp only [setResponse]
      rw [if_neg (by simp [hbp])]
      simp only [getResponse, List.find?_cons]
      cases hq : (p.1 == k') with
      | true => simp
      | false => exact ih

/-- After a set, the key is reported as present. -/
theorem containsKey_setResponse_self (rs : Responses) (k : String) (v : Response) :
    responsesContainsKey (setResponse rs k v) k = true := by
  induction rs with
  | nil => simp [setResponse, responsesContainsKey]
  | cons p rest ih =>
    by_cases h : p.1 = k
    · have hb : (p.1 == k) = true := by simpa using h
      simp only [setResponse]
      rw [if_pos hb]
      simp [responsesContainsKey]
    · have hb : (p.1 == k) = false := by simpa using h
      simp only [setResponse]
      rw [if_neg (by simp [hb])]
      simpa [responsesContainsKey, hb] using ih

/-- The keys after a set are the old keys, possibly extended by the written key. -/
theorem mem_keys_setResponse (rs : Responses) (k : String) (v : Response)
    (x : String) :
    x ∈ (setResponse rs k v).map Prod.fst ↔ x ∈ rs.map Prod.fst ∨ x = k := by
  induction rs with
  | nil => simp [setResponse]
  | cons p rest ih =>
    by_cases h : p.1 = k
    · have hb : (p.1 == k) = true := by simpa using h
      simp only [setResponse]
      rw [if_pos hb]
      simp only [List.map_cons, List.mem_cons, h]
      tauto
    · have hb : (p.1 == k) = false := by simpa using h
      simp only [setResponse]
      rw [if_neg (by simp [hb])]
      simp only [List.map_cons, List.mem_cons, ih]
      tauto

/-- A set preserves uniqueness of the keys. -/
theorem nodupKeys_setResponse (rs : Responses) (k : String) (v : Response)
    (hnd : (rs.map Prod.fst).Nodup) :
    ((setResponse rs k v).map Prod.fst).Nodup := by
  induction rs with
  | nil => simp [setResponse]
  | cons p rest ih =>
    rw [List.map_cons, List.nodup_cons] at hnd
    by_cases h : p.1 = k
    · have hb : (p.1 == k) = true := by simpa using h
      simp only [setResponse]
      rw [if_pos hb]
      rw [List.map_cons, List.nodup_cons]
      exact ⟨by rw [← h]; exact hnd.1, hnd.2⟩
    · have hb : (p.1 == k) = false := by simpa using h
      simp only [setResponse]
      rw [if_neg (by simp [hb])]
      rw [List.map_cons, List.nodup_cons]
      refine ⟨fun hmem => ?_, ih hnd.2⟩
      rcases (mem_keys_setResponse rest k v p.1).1 hmem with hin | heq
      · exact hnd.1 hin
      · exact h heq

/-- No entry of the map carries a key it does not contain. -/
theorem filter_eq_nil_of_not_mem_keys (rs : Responses) (k : String)
    (h : ¬ k ∈ rs.map Prod.fst) :
    rs.filter (fun q => q.1 == k) = [] := by
  rw [List.filter_eq_nil_iff]
  intro q hq hk
  exact h (List.mem_map.2 ⟨q, hq, by simpa using hk⟩)

/-- With unique keys, the entries under the written key after a set are exactly
the one written entry. -/
theorem filter_setResponse_self (rs : Responses) (k : String) (v : Response)
    (hnd : (rs.map Prod.fst).Nodup) :
    (setResponse rs k v).filter (fun q => q.1 == k) = [(k, v)] := by
  induction rs with
  | nil => simp [setResponse]
  | cons p rest ih =>
    rw [List.map_cons, List.nodup_cons] at hnd
    by_cases h : p.1 = k
    · have hb : (p.1 == k) = true := by simpa using h
      simp only [setResponse]
      rw [if_pos hb]
      rw [List.filter_cons_of_pos (by simp)]
      rw [filter_eq_nil_of_not_mem_keys rest k (by rw [← h]; exact hnd.1)]
    · have hb : (p.1 == k) = false := by simpa using h
      simp only [setResponse]
      rw [if_neg (by simp [hb])]
      rw [List.filter_cons_of_neg (by simp [hb])]
      exact ih hnd.2

/-- C4: applying the per-key response write for two distinct participant keys in
either order yields the same final responses map (pointwise, as a map), and
both participants' entries are present in it with the submitted values —
neither write loses the other.  `setResponse` is exactly the per-key write
`updateEventResponse` installs into the stored document. -/
theorem responseMerge_order_independent (rs : Responses) (k1 k2 : String)
    (v1 v2 : Response) (h : k1 ≠ k2) :
    (∀ k : String,
        getResponse (setResponse (setResponse rs k1 v1) k2 v2) k
          = getResponse (setResponse (setResponse rs k2 v2) k1 v1) k)
    ∧ getResponse (setResponse (setResponse rs k1 v1) k2 v2) k1 = some v1
    ∧ getResponse (setResponse (setResponse rs k1 v1) k2 v2) k2 = some v2 := by
  have h21 : k2 ≠ k1 := Ne.symm h
  have hA1 : getResponse (setResponse (setResponse rs k1 v1) k2 v2) k1 = some v1 := by
    rw [getResponse_setResponse_ne _ _ _ _ h]
    exact getResponse_setResponse_self _ _ _
  have hA2 : getResponse (setResponse (setResponse rs k1 v1) k2 v2) k2 = some v2 :=
    getResponse_setResponse_self _ _ _
  have hB1 : getResponse (setResponse (setResponse rs k2 v2) k1 v1) k1 = some v1 :=
    getResponse_setResponse_self _ _ _
  have hB2 : getResponse (setResponse (setResponse rs k2 v2) k1 v1) k2 = some v2 := by
    rw [getResponse_setResponse_ne _ _ _ _ h21]
    exact getResponse_setResponse_self _ _ _
  refine ⟨?_, hA1, hA2⟩
  intro k
  by_cases hk1 : k = k1
  · subst hk1
    rw [hA1, hB1]
  · by_cases hk2 : k = k2
    · subst hk2
      rw [hA2, hB2]
    · rw [getResponse_setResponse_ne _ _ _ _ hk2,
        getResponse_setResponse_ne _ _ _ _ hk1,
        getResponse_setResponse_ne _ _ _ _ hk1,
        getResponse_setResponse_ne _ _ _ _ hk2]

/-- Witness for C4 at `rs = []`, `k1 = "alice"`, `k2 = "bob"`. -/
theorem responseMerge_order_independent_witness :
    ("alice" : String) ≠ "bob"
    ∧ ((∀ k : String,
        getResponse (setResponse (setResponse [] "alice" sampleResponse1) "bob" sampleResponse2) k
          = getResponse (setResponse (setResponse [] "bob" sampleResponse2) "alice" sampleResponse1) k)
    ∧ getResponse (setResponse (setResponse [] "alice" sampleResponse1) "bob" sampleResponse2) "alice"
        = some sampleResponse1
    ∧ getResponse (setResponse (setResponse [] "alice" sampleResponse1) "bob" sampleResponse2) "bob"
        = some sampleResponse2) :=
  ⟨by decide,
    responseMerge_order_independent [] "alice" "bob" sampleResponse1 sampleResponse2
      (by decide)⟩

/-- C8: for two successive `updateEventResponse` submissions resolving to the
same participant key on the same stored event (whose responses document has
unique keys, the BSON invariant), the stored responses map afterwards holds
exactly one entry for that key, and that entry equals the second submitted
response in full — a wholesale overwrite, never a field-by-field merge. -/
theorem updateEventResponse_overwrite
    (s : Store) (ses1 ses2 : Option String) (eventId : String)
    (pl1 pl2 : UpdateResponsePayload) (e : Event) (k : String) (r1 r2 : Response)
    (he : GetEventById s eventId = some e)
    (hnd : (e.responses.map Prod.fst).Nodup)
    (h1 : responseIdentity ses1 pl1 = some (k, r1))
    (h2 : responseIdentity ses2 pl2 = some (k, r2)) :
    ∃ e' : Event,
      GetEventById (updateEventResponse
          (updateEventResponse s ses1 eventId pl1).store ses2 eventId pl2).store
        eventId = some e'
      ∧ e'.responses.filter (fun q => q.1 == k) = [(k, r2)]
      ∧ getResponse e'.responses k = some r2 := by
  have hst1 : (updateEventResponse s ses1 eventId pl1).store
      = updateStoredEvent s eventId
          (fun ev => { ev with responses := setResponse ev.responses k r1 }) := by
    simp [updateEventResponse, he, h1]
  have he1 : GetEventById (updateStoredEvent s eventId
        (fun ev => { ev with responses := setResponse ev.responses k r1 })) eventId
      = some { e with responses := setResponse e.responses k r1 } :=
    GetEventById_updateStoredEvent rfl he
  have hst2 : (updateEventResponse
        (updateEventResponse s ses1 eventId pl1).store ses2 eventId pl2).store
      = updateStoredEvent
          (updateStoredEvent s eventId
            (fun ev => { ev with responses := setResponse ev.responses k r1 }))
          eventId
          (fun ev => { ev with responses := setResponse ev.responses k r2 }) := by
    rw [hst1]
    simp [updateEventResponse, he1, h2]
  refine ⟨{ e with responses := setResponse (setResponse e.responses k r1) k r2 },
    ?_, ?_, ?_⟩
  · rw [hst2]
    exact GetEventById_updateStoredEvent rfl he1
  · exact filter_setResponse_self _ _ _ (nodupKeys_setResponse _ _ _ hnd)
  · exact getResponse_setResponse_self _ _ _

/-- Witness for C8: the guest `"alice"` submits twice to `sampleEventWithVictim`. -/
theorem updateEventResponse_overwrite_witness :
    GetEventById [sampleEventWithVictim] hexId1 = some sampleEventWithVictim
    ∧ (sampleEventWithVictim.responses.map Prod.fst).Nodup
    ∧ responseIdentity none { availability := [1, 2], guest := true, name := "alice" }
        = some ("alice", sampleResponse1)
    ∧ responseIdentity none { availability := [3], guest := true, name := "alice" }
        = some ("alice", sampleResponse2)
    ∧ ∃ e' : Event,
        GetEventById (updateEventResponse
            (updateEventResponse [sampleEventWithVictim] none hexId1
              { availability := [1, 2], guest := true, name := "alice" }).store
            none hexId1
            { availability := [3], guest := true, name := "alice" }).store
          hexId1 = some e'
        ∧ e'.responses.filter (fun q => q.1 == "alice") = [("alice", sampleResponse2)]
        ∧ getResponse e'.responses "alice" = some sampleResponse2 :=
  ⟨by decide, by decide, by decide, by decide,
    updateEventResponse_overwrite [sampleEventWithVictim] none none hexId1
      _ _ sampleEventWithVictim "alice" sampleResponse1 sampleResponse2
      (by decide) (by decide) (by decide) (by decide)⟩

/-- C1 (amended): on an existing event, a submission resolving to key `k`
triggers exactly one first-response notification when `notificationsEnabled` is
true, `k` had no entry in `responses` before the call, and `k` differs from the
owner's id — *regardless of the event's type* (the source has no type check on
this trigger) — and zero notifications otherwise (key already present, owner's
own key, or notifications disabled); moreover a second submission resolving to
the same key right after the first triggers zero. -/
theorem updateEventResponse_first_response_trigger
    (s : Store) (ses : Option String) (eventId : String)
    (pl : UpdateResponsePayload) (e : Event) (k : String) (r : Response)
    (he : GetEventById s eventId = some e)
    (hid : responseIdentity ses pl = some (k, r)) :
    (updateEventResponse s ses eventId pl).status = .ok
    ∧ (updateEventResponse s ses eventId pl).notificationsTriggered
        = (if CoalesceB e.notificationsEnabled = true
              ∧ responsesContainsKey e.responses k = false
              ∧ k ≠ e.ownerId
           then 1 else 0)
    ∧ (∀ (ses2 : Option String) (pl2 : UpdateResponsePayload) (r2 : Response),
        responseIdentity ses2 pl2 = some (k, r2) →
          (updateEventResponse (updateEventResponse s ses eventId pl).store
              ses2 eventId pl2).notificationsTriggered = 0) := by
  have hst1 : (updateEventResponse s ses eventId pl).store
      = updateStoredEvent s eventId
          (fun ev => { ev with responses := setResponse ev.responses k r }) := by
    simp [updateEventResponse, he, hid]
  refine ⟨?_, ?_, ?_⟩
  · simp [updateEventResponse, he, hid]
  · by_cases h1 : CoalesceB e.notificationsEnabled = true <;>
      by_cases h2 : responsesContainsKey e.responses k = true <;>
      by_cases h3 : k = e.ownerId <;>
      simp [updateEventResponse, he, hid, h1, h2, h3]
  · intro ses2 pl2 r2 hid2
    have he1 : GetEventById (updateStoredEvent s eventId
          (fun ev => { ev with responses := setResponse ev.responses k r })) eventId
        = some { e with responses := setResponse e.responses k r } :=
      GetEventById_updateStoredEvent rfl he
    rw [hst1]
    simp [updateEventResponse, he1, hid2, containsKey_setResponse_self]

/-- Witness for C1 on `sampleRichEvent` with the guest `"alice"`. -/
theorem updateEventResponse_first_response_trigger_witness :
    GetEventById [sampleRichEvent] hexId1 = some sampleRichEvent
    ∧ responseIdentity none { availability := [1, 2], guest := true, name := "alice" }
        = some ("alice", sampleResponse1)
    ∧ ((updateEventResponse [sampleRichEvent] none hexId1
          { availability := [1, 2], guest := true, name := "alice" }).status = .ok
      ∧ (updateEventResponse [sampleRichEvent] none hexId1
          { availability := [1, 2], guest := true, name := "alice" }).notificationsTriggered
          = (if CoalesceB sampleRichEvent.notificationsEnabled = true
                ∧ responsesContainsKey sampleRichEvent.responses "alice" = false
                ∧ "alice" ≠ sampleRichEvent.ownerId
             then 1 else 0)
      ∧ (∀ (ses2 : Option String) (pl2 : UpdateResponsePayload) (r2 : Response),
          responseIdentity ses2 pl2 = some ("alice", r2) →
            (updateEventResponse (updateEventResponse [sampleRichEvent] none hexId1
                { availability := [1, 2], guest := true, name := "alice" }).store
                ses2 hexId1 pl2).notificationsTriggered = 0)) :=
  ⟨by decide, by decide,
    updateEventResponse_first_response_trigger [sampleRichEvent] none hexId1
      _ sampleRichEvent "alice" sampleResponse1 (by decide) (by decide)⟩

/-- Counterexample to C1 as stated: on a `GROUP` event with notifications
enabled, a fresh non-owner guest submission triggers one first-response
notification, though the claim allows this "only for discrete (SPECIFIC_DATES)
and day-of-week (DOW) events". -/
theorem updateEventResponse_group_trigger_counterexample :
    sampleGroupEvent.type = EventType.GROUP
    ∧ CoalesceB sampleGroupEvent.notificationsEnabled = true
    ∧ responsesContainsKey sampleGroupEvent.responses "zoe" = false
    ∧ "zoe" ≠ sampleGroupEvent.ownerId
    ∧ (updateEventResponse [sampleGroupEvent] none hexId1
        { availability := [5], guest := true, name := "zoe" }).notificationsTriggered
        = 1 := by
  decide

/-- C2: on an existing event whose remindee list carries the submitted email at
first-match index `i`: if that remindee already responded, the call returns 200
with zero writes, zero cancellations and zero notifications; otherwise it sets
exactly that remindee's flag, cancels exactly its task ids, performs one write,
and fires the everyone-responded notification iff every remindee of the
resulting list has responded.  The final clause gives at-most-once: on any
event whose stored remindees all responded, a further call fires nothing. -/
theorem userResponded_behavior
    (s : Store) (eventId email : String) (e : Event) (rl : List Remindee) (i : Nat)
    (he : GetEventById s eventId = some e)
    (hrl : e.remindees = some rl)
    (hidx : rl.findIdx? (fun r => r.email == email) = some i) :
    ((rl.getD i defaultRemindee).responded = true →
      userResponded s eventId email = ⟨.ok, s, [], 0, 0⟩)
    ∧ ((rl.getD i defaultRemindee).responded = false →
      (userResponded s eventId email).status = .ok
      ∧ (userResponded s eventId email).cancelledTaskIds
          = (rl.getD i defaultRemindee).taskIds
      ∧ (userResponded s eventId email).persistenceWrites = 1
      ∧ GetEventById (userResponded s eventId email).store eventId
          = some { e with remindees := some (rl.set i
              { rl.getD i defaultRemindee with responded := true }) }
      ∧ (userResponded s eventId email).allRespondedNotifications
          = (if (rl.set i { rl.getD i defaultRemindee with responded := true }).all
                (fun rr => rr.responded) then 1 else 0))
    ∧ (∀ (s2 : Store) (id2 email2 : String) (e2 : Event) (rl2 : List Remindee),
        GetEventById s2 id2 = some e2 → e2.remindees = some rl2 →
        rl2.all (fun rr => rr.responded) = true →
          (userResponded s2 id2 email2).allRespondedNotifications = 0) := by
  refine ⟨?_, ?_, ?_⟩
  · intro h
    rw [List.getD_eq_getElem?_getD] at h
    simp [userResponded, he, hrl, hidx, h]
  · intro h
    rw [List.getD_eq_getElem?_getD] at h
    have heid : e.id = eventId := GetEventById_id he
    subst heid
    refine ⟨?_, ?_, ?_, ?_, ?_⟩
    · simp [userResponded, he, hrl, hidx, h]
    · simp [userResponded, he, hrl, hidx, h]
    · simp [userResponded, he, hrl, hidx, h]
    · have hst : (userResponded s e.id email).store
          = updateStoredEvent s e.id (fun _ => { e with remindees := some (rl.set i
              { rl.getD i defaultRemindee with responded := true }) }) := by
        simp [userResponded, he, hrl, hidx, h]
      rw [hst]
      refine GetEventById_updateStoredEvent ?_ he
      rfl
    · simp [userResponded, he, hrl, hidx, h]
  · intro s2 id2 email2 e2 rl2 he2 hrl2 hall
    cases hfi : rl2.findIdx? (fun r => r.email == email2) with
    | none => simp [userResponded, he2, hrl2, hfi]
    | some j =>
      have hj : j < rl2.length := by
        have := List.findIdx?_eq_some_iff_findIdx_eq.1 hfi
        omega
      have hresp : (rl2[j]?.getD defaultRemindee).responded = true := by
        have hsome : rl2[j]? = some rl2[j] := List.getElem?_eq_getElem hj
        rw [hsome]
        simpa using List.all_eq_true.1 hall _ (rl2.getElem_mem hj)
      simp [userResponded, he2, hrl2, hfi, hresp]

/-- Witness for C2 on `sampleRemindeeEvent`, marking `"a@x.io"` responded. -/
theorem userResponded_behavior_witness :
    GetEventById [sampleRemindeeEvent] hexId1 = some sampleRemindeeEvent
    ∧ sampleRemindeeEvent.remindees
        = some [⟨"a@x.io", ["t1", "t2"], false⟩, ⟨"b@x.io", ["t3"], true⟩]
    ∧ ([⟨"a@x.io", ["t1", "t2"], false⟩,
        (⟨"b@x.io", ["t3"], true⟩ : Remindee)].findIdx?
          (fun r => r.email == "a@x.io") = some 0)
    ∧ (([⟨"a@x.io", ["t1", "t2"], false⟩,
          (⟨"b@x.io", ["t3"], true⟩ : Remindee)].getD 0 defaultRemindee).responded = true →
        userResponded [sampleRemindeeEvent] hexId1 "a@x.io"
          = ⟨.ok, [sampleRemindeeEvent], [], 0, 0⟩)
    ∧ (([⟨"a@x.io", ["t1", "t2"], false⟩,
          (⟨"b@x.io", ["t3"], true⟩ : Remindee)].getD 0 defaultRemindee).responded = false →
        (userResponded [sampleRemindeeEvent] hexId1 "a@x.io").status = .ok
        ∧ (userResponded [sampleRemindeeEvent] hexId1 "a@x.io").cancelledTaskIds
            = ([⟨"a@x.io", ["t1", "t2"], false⟩,
                (⟨"b@x.io", ["t3"], true⟩ : Remindee)].getD 0 defaultRemindee).taskIds
        ∧ (userResponded [sampleRemindeeEvent] hexId1 "a@x.io").persistenceWrites = 1
        ∧ GetEventById (userResponded [sampleRemindeeEvent] hexId1 "a@x.io").store hexId1
            = some { sampleRemindeeEvent with
                remindees := some ([⟨"a@x.io", ["t1", "t2"], false⟩,
                  (⟨"b@x.io", ["t3"], true⟩ : Remindee)].set 0
                    { [⟨"a@x.io", ["t1", "t2"], false⟩,
                      (⟨"b@x.io", ["t3"], true⟩ : Remindee)].getD 0 defaultRemindee
                        with responded := true }) }
        ∧ (userResponded [sampleRemindeeEvent] hexId1 "a@x.io").allRespondedNotifications
            = (if ([⟨"a@x.io", ["t1", "t2"], false⟩,
                  (⟨"b@x.io", ["t3"], true⟩ : Remindee)].set 0
                    { [⟨"a@x.io", ["t1", "t2"], false⟩,
                      (⟨"b@x.io", ["t3"], true⟩ : Remindee)].getD 0 defaultRemindee
                        with responded := true }).all (fun rr => rr.responded)
               then 1 else 0))
    ∧ (∀ (s2 : Store) (id2 email2 : String) (e2 : Event) (rl2 : List Remindee),
        GetEventById s2 id2 = some e2 → e2.remindees = some rl2 →
        rl2.all (fun rr => rr.responded) = true →
          (userResponded s2 id2 email2).allRespondedNotifications = 0) := by
  have h := userResponded_behavior [sampleRemindeeEvent] hexId1 "a@x.io"
    sampleRemindeeEvent
    [⟨"a@x.io", ["t1", "t2"], false⟩, ⟨"b@x.io", ["t3"], true⟩] 0
    (by decide) (by decide) (by decide)
  exact ⟨by decide, by decide, by decide, h.1, h.2.1, h.2.2⟩

/-- Counterexample to C3 as stated: a signed-in actor who is not the event
owner deletes another participant's response by flagging the request as a guest
request — the call succeeds and removes the entry instead of failing with
Forbidden (the guest path performs no permission check and never reads the
session). -/
theorem deleteEventResponse_guest_bypass_counterexample :
    sampleEventWithVictim.ownerId ≠ otherUser
    ∧ responsesContainsKey sampleEventWithVictim.responses "victim" = true
    ∧ (deleteEventResponse [sampleEventWithVictim] (some otherUser) hexId1
        { guest := true, name := "victim" }).status = .ok
    ∧ GetEventById (deleteEventResponse [sampleEventWithVictim] (some otherUser) hexId1
        { guest := true, name := "victim" }).store hexId1
        = some { sampleEventWithVictim with responses := [] } := by
  decide

/-- C3 (amended): on an existing event, a participant may always delete their
own response; for non-guest (signed-in) requests, deleting a key other than
one's own succeeds only for the event owner — any other signed-in actor gets
Forbidden with the store unchanged; guest-flagged requests, however, undergo no
permission check at all: they delete the response stored under the submitted
name unconditionally, whoever the actor is. -/
theorem deleteEventResponse_permissions
    (s : Store) (eventId : String) (e : Event) (pl : DeleteResponsePayload)
    (he : GetEventById s eventId = some e) :
    (∀ uid : String, pl.guest = false → pl.userId ≠ uid → e.ownerId ≠ uid →
      deleteEventResponse s (some uid) eventId pl = ⟨.forbidden, s⟩)
    ∧ (∀ uid : String, pl.guest = false → (pl.userId = uid ∨ e.ownerId = uid) →
      (deleteEventResponse s (some uid) eventId pl).status = .ok
      ∧ GetEventById (deleteEventResponse s (some uid) eventId pl).store eventId
          = some { e with responses := deleteResponse e.responses pl.userId })
    ∧ (∀ ses : Option String, pl.guest = true →
      (deleteEventResponse s ses eventId pl).status = .ok
      ∧ GetEventById (deleteEventResponse s ses eventId pl).store eventId
          = some { e with responses := deleteResponse e.responses pl.name }) := by
  refine ⟨?_, ?_, ?_⟩
  · intro uid hg hne hno
    have h1 : (pl.userId != uid) = true := by simp [hne]
    have h2 : (e.ownerId != uid) = true := by simp [hno]
    simp [deleteEventResponse, he, hg, h1, h2]
  · intro uid hg hor
    have hcond : (pl.userId != uid && e.ownerId != uid) = false := by
      rcases hor with h | h <;> simp [h]
    have hst : (deleteEventResponse s (some uid) eventId pl).store
        = updateStoredEvent s eventId
            (fun ev => { ev with responses := deleteResponse ev.responses pl.userId }) := by
      simp [deleteEventResponse, he, hg, hcond]
    refine ⟨by simp [deleteEventResponse, he, hg, hcond], ?_⟩
    rw [hst]
    refine GetEventById_updateStoredEvent ?_ he
    rfl
  · intro ses hg
    have hst : (deleteEventResponse s ses eventId pl).store
        = updateStoredEvent s eventId
            (fun ev => { ev with responses := deleteResponse ev.responses pl.name }) := by
      simp [deleteEventResponse, he, hg]
    refine ⟨by simp [deleteEventResponse, he, hg], ?_⟩
    rw [hst]
    refine GetEventById_updateStoredEvent ?_ he
    rfl

/-- Witness for C3 (amended) on `sampleEventWithVictim` with the request body
`{userId := "victim", guest := false}`. -/
theorem deleteEventResponse_permissions_witness :
    GetEventById [sampleEventWithVictim] hexId1 = some sampleEventWithVictim
    ∧ ((∀ uid : String,
        (false : Bool) = false → "victim" ≠ uid → sampleEventWithVictim.ownerId ≠ uid →
        deleteEventResponse [sampleEventWithVictim] (some uid) hexId1
          { userId := "victim", guest := false } = ⟨.forbidden, [sampleEventWithVictim]⟩)
    ∧ (∀ uid : String,
        (false : Bool) = false → ("victim" = uid ∨ sampleEventWithVictim.ownerId = uid) →
        (deleteEventResponse [sampleEventWithVictim] (some uid) hexId1
          { userId := "victim", guest := false }).status = .ok
        ∧ GetEventById (deleteEventResponse [sampleEventWithVictim] (some uid) hexId1
            { userId := "victim", guest := false }).store hexId1
            = some { sampleEventWithVictim with
                responses := deleteResponse sampleEventWithVictim.responses "victim" })
    ∧ (∀ ses : Option String, (false : Bool) = true →
        (deleteEventResponse [sampleEventWithVictim] ses hexId1
          { userId := "victim", guest := false }).status = .ok
        ∧ GetEventById (deleteEventResponse [sampleEventWithVictim] ses hexId1
            { userId := "victim", guest := false }).store hexId1
            = some { sampleEventWithVictim with
                responses := deleteResponse sampleEventWithVictim.responses "" })) :=
  ⟨by decide,
    deleteEventResponse_permissions [sampleEventWithVictim] hexId1 sampleEventWithVictim
      { userId := "victim", guest := false } (by decide)⟩

/-- Counterexample to C9 as stated: with no stored event under the referenced
id, `duplicateEvent` answers BadRequest rather than NotFound, and `deleteEvent`
answers OK without any existence check — neither surfaces a NotFound error. -/
theorem missing_event_notfound_counterexample :
    GetEventById ([] : Store) hexId1 = none
    ∧ (duplicateEvent [] ownerUser hexId1 ⟨"copy", true⟩ hexId2).status = .badRequest
    ∧ (deleteEvent [] ownerUser hexId1).status = .ok
    ∧ Status.badRequest ≠ Status.notFound
    ∧ Status.ok ≠ Status.notFound := by
  decide

/-- C9 (amended): when no stored event carries the referenced id, `editEvent`,
`getEvent`, `updateEventResponse`, `deleteEventResponse`, `userResponded` and
`declineInvite` fail with NotFound, leave the store unchanged and emit no side
effects; `duplicateEvent` fails with BadRequest (not NotFound) inserting
nothing; and `deleteEvent` (on a well-formed id) performs no existence check,
answering OK while deleting nothing. -/
theorem missing_event_behavior (s : Store) (eventId : String)
    (hnone : GetEventById s eventId = none) :
    (∀ (ses : Option String) (pl : EditPayload) (sched : String → List String),
      editEvent s ses eventId pl sched = ⟨.notFound, s, [], [], []⟩)
    ∧ getEvent s eventId = ⟨.notFound, s⟩
    ∧ (∀ (ses : Option String) (pl : UpdateResponsePayload),
      updateEventResponse s ses eventId pl = ⟨.notFound, s, 0⟩)
    ∧ (∀ (ses : Option String) (pl : DeleteResponsePayload),
      deleteEventResponse s ses eventId pl = ⟨.notFound, s⟩)
    ∧ (∀ email : String, userResponded s eventId email = ⟨.notFound, s, [], 0, 0⟩)
    ∧ (∀ email : String, declineInvite s email eventId = ⟨.notFound, s⟩)
    ∧ (∀ (uid : ObjectID) (pl : DuplicatePayload) (freshId : ObjectID),
      duplicateEvent s uid eventId pl freshId = ⟨.badRequest, s, none⟩)
    ∧ (∀ uid : ObjectID, isValidObjectIDHex eventId = true →
      deleteEvent s uid eventId = ⟨.ok, s⟩) := by
  refine ⟨?_, ?_, ?_, ?_, ?_, ?_, ?_, ?_⟩
  · intro ses pl sched
    simp [editEvent, hnone]
  · simp [getEvent, hnone]
  · intro ses pl
    simp [updateEventResponse, hnone]
  · intro ses pl
    simp [deleteEventResponse, hnone]
  · intro email
    simp [userResponded, hnone]
  · intro email
    simp [declineInvite, hnone]
  · intro uid pl freshId
    simp [duplicateEvent, hnone]
  · intro uid hvalid
    have hidx : s.findIdx? (fun e => e.id == eventId && e.ownerId == uid) = none := by
      rw [List.findIdx?_eq_none_iff]
      intro x hx
      have hfx : ¬ ((x.id == eventId) = true) := List.find?_eq_none.1 hnone x hx
      have hfx' : (x.id == eventId) = false := by
        cases hxx : (x.id == eventId) with
        | true => exact absurd hxx hfx
        | false => rfl
      simp [hfx']
    simp [deleteEvent, hvalid, hidx]

/-- Witness for C9 (amended) on the empty store and `hexId1`. -/
theorem missing_event_behavior_witness :
    GetEventById ([] : Store) hexId1 = none
    ∧ ((∀ (ses : Option String) (pl : EditPayload) (sched : String → List String),
        editEvent [] ses hexId1 pl sched = ⟨.notFound, [], [], [], []⟩)
    ∧ getEvent [] hexId1 = ⟨.notFound, []⟩
    ∧ (∀ (ses : Option String) (pl : UpdateResponsePayload),
        updateEventResponse [] ses hexId1 pl = ⟨.notFound, [], 0⟩)
    ∧ (∀ (ses : Option String) (pl : DeleteResponsePayload),
        deleteEventResponse [] ses hexId1 pl = ⟨.notFound, []⟩)
    ∧ (∀ email : String, userResponded [] hexId1 email = ⟨.notFound, [], [], 0, 0⟩)
    ∧ (∀ email : String, declineInvite [] email hexId1 = ⟨.notFound, []⟩)
    ∧ (∀ (uid : ObjectID) (pl : DuplicatePayload) (freshId : ObjectID),
        duplicateEvent [] uid hexId1 pl freshId = ⟨.badRequest, [], none⟩)
    ∧ (∀ uid : ObjectID, isValidObjectIDHex hexId1 = true →
        deleteEvent [] uid hexId1 = ⟨.ok, []⟩)) :=
  ⟨by decide, missing_event_behavior [] hexId1 (by decide)⟩

/-- C5: duplicating an existing event as its owner creates a stored event under
the store-assigned fresh id — distinct from the source id — carrying the same
configuration with the name replaced by the payload's event name, whose
responses equal the source's when `copyAvailability` is true and are empty
otherwise; the source event is unchanged in the store. -/
theorem duplicateEvent_correct
    (s : Store) (eventId : String) (e : Event) (pl : DuplicatePayload)
    (freshId : ObjectID)
    (he : GetEventById s eventId = some e)
    (hfresh : ∀ ev ∈ s, ev.id ≠ freshId) :
    (duplicateEvent s e.ownerId eventId pl freshId).status = .created
    ∧ (duplicateEvent s e.ownerId eventId pl freshId).insertedId = some freshId
    ∧ freshId ≠ e.id
    ∧ GetEventById (duplicateEvent s e.ownerId eventId pl freshId).store freshId
        = some { e with
            id := freshId, name := pl.eventName,
            responses := if pl.copyAvailability then e.responses else [] }
    ∧ GetEventById (duplicateEvent s e.ownerId eventId pl freshId).store eventId
        = some e := by
  have hst : (duplicateEvent s e.ownerId eventId pl freshId).store
      = s ++ [{ e with
          id := freshId, name := pl.eventName,
          responses := if pl.copyAvailability then e.responses else [] }] := by
    cases hc : pl.copyAvailability <;> simp [duplicateEvent, he, hc]
  have hne : freshId ≠ e.id := fun hcontra =>
    hfresh e (GetEventById_mem he) hcontra.symm
  have hnones : GetEventById s freshId = none := by
    rw [GetEventById, List.find?_eq_none]
    intro ev hev
    simp [hfresh ev hev]
  refine ⟨?_, ?_, hne, ?_, ?_⟩
  · cases hc : pl.copyAvailability <;> simp [duplicateEvent, he, hc]
  · cases hc : pl.copyAvailability <;> simp [duplicateEvent, he, hc]
  · rw [hst, GetEventById_append_right hnones]
    simp [GetEventById]
  · rw [hst]
    exact GetEventById_append_left he

/-- Witness for C5: `sampleRichEvent` duplicated by its owner with
`copyAvailability = true` and fresh id `hexId2`. -/
theorem duplicateEvent_correct_witness :
    GetEventById [sampleRichEvent] hexId1 = some sampleRichEvent
    ∧ (∀ ev ∈ [sampleRichEvent], ev.id ≠ hexId2)
    ∧ ((duplicateEvent [sampleRichEvent] sampleRichEvent.ownerId hexId1
          ⟨"copy", true⟩ hexId2).status = .created
      ∧ (duplicateEvent [sampleRichEvent] sampleRichEvent.ownerId hexId1
          ⟨"copy", true⟩ hexId2).insertedId = some hexId2
      ∧ hexId2 ≠ sampleRichEvent.id
      ∧ GetEventById (duplicateEvent [sampleRichEvent] sampleRichEvent.ownerId hexId1
          ⟨"copy", true⟩ hexId2).store hexId2
          = some { sampleRichEvent with
              id := hexId2, name := "copy",
              responses := if (true : Bool) then sampleRichEvent.responses else [] }
      ∧ GetEventById (duplicateEvent [sampleRichEvent] sampleRichEvent.ownerId hexId1
          ⟨"copy", true⟩ hexId2).store hexId1
          = some sampleRichEvent) :=
  ⟨by decide, by decide,
    duplicateEvent_correct [sampleRichEvent] hexId1 sampleRichEvent ⟨"copy", true⟩ hexId2
      (by decide) (by decide)⟩

/-! ## Lemmas about `editEvent` -/

/-- The edit core never changes the event id. -/
theorem applyEdit_id (e0 : Event) (pl : EditPayload) (sched : String → List String) :
    (applyEdit e0 pl sched).1.id = e0.id := by
  cases ht : pl.type <;> simp [applyEdit, ht]

/-- On a passing permission check, `editEvent` answers OK and installs the edit
core's rewritten event under the event's id. -/
theorem editEvent_ok (s : Store) (ses : Option String) (eventId : String)
    (pl : EditPayload) (sched : String → List String) (e0 : Event)
    (he : GetEventById s eventId = some e0)
    (hperm : (e0.ownerId != nilObjectID && e0.ownerId != sessionOwnerId ses) = false) :
    editEvent s ses eventId pl sched
      = ⟨.ok,
          updateStoredEvent s (applyEdit e0 pl sched).1.id
            (fun _ => (applyEdit e0 pl sched).1),
          (applyEdit e0 pl sched).2.1,
          (applyEdit e0 pl sched).2.2.1,
          (applyEdit e0 pl sched).2.2.2⟩ := by
  simp [editEvent, he, hperm]

/-- After a successful edit, loading the event id yields the edit core's event. -/
theorem editEvent_store_after (s : Store) (ses : Option String) (eventId : String)
    (pl : EditPayload) (sched : String → List String) (e0 : Event)
    (he : GetEventById s eventId = some e0)
    (hperm : (e0.ownerId != nilObjectID && e0.ownerId != sessionOwnerId ses) = false) :
    GetEventById (editEvent s ses eventId pl sched).store eventId
      = some (applyEdit e0 pl sched).1 := by
  rw [editEvent_ok s ses eventId pl sched e0 he hperm]
  show GetEventById (updateStoredEvent s (applyEdit e0 pl sched).1.id
      (fun _ => (applyEdit e0 pl sched).1)) eventId
    = some (applyEdit e0 pl sched).1
  rw [applyEdit_id e0 pl sched, GetEventById_id he]
  refine GetEventById_updateStoredEvent ?_ he
  rw [applyEdit_id e0 pl sched, GetEventById_id he]

/-- On a `SPECIFIC_DATES` or `DOW` edit, the attendee list is untouched, no
invites go out, and the remindee list is rebuilt from the diff. -/
theorem applyEdit_discrete (e0 : Event) (pl : EditPayload)
    (sched : String → List String)
    (ht : pl.type = .SPECIFIC_DATES ∨ pl.type = .DOW) :
    (applyEdit e0 pl sched).1.attendees = e0.attendees
    ∧ (applyEdit e0 pl sched).2.2.2 = []
    ∧ (applyEdit e0 pl sched).1.remindees
        = some ((FindAddedRemovedKept pl.remindees
              ((Coalesce e0.remindees).map (fun r => r.email))).2.2.map
            (fun k => (Coalesce e0.remindees).getD k.Index defaultRemindee)
          ++ (FindAddedRemovedKept pl.remindees
              ((Coalesce e0.remindees).map (fun r => r.email))).1.map
            (fun a => Remindee.mk a.Value (sched a.Value) false)) := by
  rcases ht with h | h <;> simp [applyEdit, h]

/-- On a `GROUP` edit, the remindee list is untouched, no reminder tasks are
scheduled or cancelled, and the attendee list is rebuilt from the diff. -/
theorem applyEdit_group (e0 : Event) (pl : EditPayload)
    (sched : String → List String) (ht : pl.type = .GROUP) :
    (applyEdit e0 pl sched).1.remindees = e0.remindees
    ∧ (applyEdit e0 pl sched).2.1 = []
    ∧ (applyEdit e0 pl sched).2.2.1 = []
    ∧ (applyEdit e0 pl sched).1.attendees
        = some ((FindAddedRemovedKept pl.attendees
              ((Coalesce e0.attendees).map (fun a => a.email))).2.2.map
            (fun k => (Coalesce e0.attendees).getD k.Index defaultAttendee)
          ++ (FindAddedRemovedKept pl.attendees
              ((Coalesce e0.attendees).map (fun a => a.email))).1.map
            (fun a => Attendee.mk a.Value false)) := by
  simp [applyEdit, ht]

/-- A stored remindee whose email is in the submitted list reappears unchanged
in the rebuilt list (through the `kept` component of the diff). -/
theorem kept_remindee_mem (orig : List Remindee) (newEmails : List String)
    (sched : String → List String) (i : Nat) (r : Remindee)
    (hget : orig[i]? = some r) (hmem : r.email ∈ newEmails) :
    r ∈ (FindAddedRemovedKept newEmails (orig.map (fun x => x.email))).2.2.map
          (fun k => orig.getD k.Index defaultRemindee)
        ++ (FindAddedRemovedKept newEmails (orig.map (fun x => x.email))).1.map
          (fun a => Remindee.mk a.Value (sched a.Value) false) := by
  refine List.mem_append.2 (Or.inl ?_)
  refine List.mem_map.2 ⟨⟨r.email, i⟩, ?_, ?_⟩
  · apply mem_diff_of_getElem?
    · rw [List.getElem?_map, hget]
      rfl
    · simpa using hmem
  · show orig.getD i defaultRemindee = r
    rw [List.getD_eq_getElem?_getD, hget]
    rfl

/-- A stored attendee whose email is in the submitted list reappears unchanged
in the rebuilt list (through the `kept` component of the diff). -/
theorem kept_attendee_mem (orig : List Attendee) (newEmails : List String)
    (i : Nat) (a : Attendee)
    (hget : orig[i]? = some a) (hmem : a.email ∈ newEmails) :
    a ∈ (FindAddedRemovedKept newEmails (orig.map (fun x => x.email))).2.2.map
          (fun k => orig.getD k.Index defaultAttendee)
        ++ (FindAddedRemovedKept newEmails (orig.map (fun x => x.email))).1.map
          (fun x => Attendee.mk x.Value false) := by
  refine List.mem_append.2 (Or.inl ?_)
  refine List.mem_map.2 ⟨⟨a.email, i⟩, ?_, ?_⟩
  · apply mem_diff_of_getElem?
    · rw [List.getElem?_map, hget]
      rfl
    · simpa using hmem
  · show orig.getD i defaultAttendee = a
    rw [List.getD_eq_getElem?_getD, hget]
    rfl

/-- C7: on a successful edit, every stored remindee whose email also appears in
the submitted remindee list is present *unchanged* (same record: same responded
flag and task ids) in the stored list after a `SPECIFIC_DATES`/`DOW` edit —
and the analogous preservation holds for kept attendees on a `GROUP` edit. -/
theorem editEvent_kept_preserved (s : Store) (ses : Option String)
    (eventId : String) (pl : EditPayload) (sched : String → List String)
    (e0 : Event)
    (he : GetEventById s eventId = some e0)
    (hperm : (e0.ownerId != nilObjectID && e0.ownerId != sessionOwnerId ses) = false) :
    ((pl.type = .SPECIFIC_DATES ∨ pl.type = .DOW) →
      ∃ e' : Event,
        GetEventById (editEvent s ses eventId pl sched).store eventId = some e'
        ∧ ∀ (i : Nat) (r : Remindee),
            (Coalesce e0.remindees)[i]? = some r →
            r.email ∈ pl.remindees →
            r ∈ Coalesce e'.remindees)
    ∧ (pl.type = .GROUP →
      ∃ e' : Event,
        GetEventById (editEvent s ses eventId pl sched).store eventId = some e'
        ∧ ∀ (i : Nat) (a : Attendee),
            (Coalesce e0.attendees)[i]? = some a →
            a.email ∈ pl.attendees →
            a ∈ Coalesce e'.attendees) := by
  constructor
  · intro ht
    refine ⟨(applyEdit e0 pl sched).1,
      editEvent_store_after s ses eventId pl sched e0 he hperm, ?_⟩
    intro i r hget hmem
    rw [(applyEdit_discrete e0 pl sched ht).2.2]
    exact kept_remindee_mem (Coalesce e0.remindees) pl.remindees sched i r hget hmem
  · intro ht
    refine ⟨(applyEdit e0 pl sched).1,
      editEvent_store_after s ses eventId pl sched e0 he hperm, ?_⟩
    intro i a hget hmem
    rw [(applyEdit_group e0 pl sched ht).2.2.2]
    exact kept_attendee_mem (Coalesce e0.attendees) pl.attendees i a hget hmem

/-- C10: a successful edit reconciles only the participant list matching the
newly submitted type: a `GROUP` edit leaves the stored remindee list unchanged
and schedules/cancels no reminder tasks even if the payload carries remindee
emails; a `SPECIFIC_DATES`/`DOW` edit leaves the stored attendee list unchanged
and sends no invites even if the payload carries attendee emails. -/
theorem editEvent_reconciles_matching_type_only (s : Store) (ses : Option String)
    (eventId : String) (pl : EditPayload) (sched : String → List String)
    (e0 : Event)
    (he : GetEventById s eventId = some e0)
    (hperm : (e0.ownerId != nilObjectID && e0.ownerId != sessionOwnerId ses) = false) :
    (pl.type = .GROUP →
      (editEvent s ses eventId pl sched).scheduledTasks = []
      ∧ (editEvent s ses eventId pl sched).cancelledTaskIds = []
      ∧ ∃ e' : Event,
          GetEventById (editEvent s ses eventId pl sched).store eventId = some e'
          ∧ e'.remindees = e0.remindees)
    ∧ ((pl.type = .SPECIFIC_DATES ∨ pl.type = .DOW) →
      (editEvent s ses eventId pl sched).inviteEmailsSent = []
      ∧ ∃ e' : Event,
          GetEventById (editEvent s ses eventId pl sched).store eventId = some e'
          ∧ e'.attendees = e0.attendees) := by
  have hok := editEvent_ok s ses eventId pl sched e0 he hperm
  constructor
  · intro ht
    have h := applyEdit_group e0 pl sched ht
    refine ⟨?_, ?_, ⟨(applyEdit e0 pl sched).1,
      editEvent_store_after s ses eventId pl sched e0 he hperm, h.1⟩⟩
    · rw [hok]
      exact h.2.1
    · rw [hok]
      exact h.2.2.1
  · intro ht
    have h := applyEdit_discrete e0 pl sched ht
    refine ⟨?_, ⟨(applyEdit e0 pl sched).1,
      editEvent_store_after s ses eventId pl sched e0 he hperm, h.1⟩⟩
    rw [hok]
    exact h.2.1

/-- Witness for C7: editing `sampleRichEvent` as its owner with
`sampleEditPayloadDiscrete`. -/
theorem editEvent_kept_preserved_witness :
    GetEventById [sampleRichEvent] hexId1 = some sampleRichEvent
    ∧ (sampleRichEvent.ownerId != nilObjectID
        && sampleRichEvent.ownerId != sessionOwnerId (some ownerUser)) = false
    ∧ (((sampleEditPayloadDiscrete.type = .SPECIFIC_DATES
          ∨ sampleEditPayloadDiscrete.type = .DOW) →
        ∃ e' : Event,
          GetEventById (editEvent [sampleRichEvent] (some ownerUser) hexId1
              sampleEditPayloadDiscrete sampleSched).store hexId1 = some e'
          ∧ ∀ (i : Nat) (r : Remindee),
              (Coalesce sampleRichEvent.remindees)[i]? = some r →
              r.email ∈ sampleEditPayloadDiscrete.remindees →
              r ∈ Coalesce e'.remindees)
      ∧ (sampleEditPayloadDiscrete.type = .GROUP →
        ∃ e' : Event,
          GetEventById (editEvent [sampleRichEvent] (some ownerUser) hexId1
              sampleEditPayloadDiscrete sampleSched).store hexId1 = some e'
          ∧ ∀ (i : Nat) (a : Attendee),
              (Coalesce sampleRichEvent.attendees)[i]? = some a →
              a.email ∈ sampleEditPayloadDiscrete.attendees →
              a ∈ Coalesce e'.attendees)) :=
  ⟨by decide, by decide,
    editEvent_kept_preserved [sampleRichEvent] (some ownerUser) hexId1
      sampleEditPayloadDiscrete sampleSched sampleRichEvent (by decide) (by decide)⟩

/-- Witness for C10: editing `sampleGroupEvent2` as its owner with
`sampleEditPayloadGroup`. -/
theorem editEvent_reconciles_matching_type_only_witness :
    GetEventById [sampleGroupEvent2] hexId2 = some sampleGroupEvent2
    ∧ (sampleGroupEvent2.ownerId != nilObjectID
        && sampleGroupEvent2.ownerId != sessionOwnerId (some ownerUser)) = false
    ∧ ((sampleEditPayloadGroup.type = .GROUP →
        (editEvent [sampleGroupEvent2] (some ownerUser) hexId2
            sampleEditPayloadGroup sampleSched).scheduledTasks = []
        ∧ (editEvent [sampleGroupEvent2] (some ownerUser) hexId2
            sampleEditPayloadGroup sampleSched).cancelledTaskIds = []
        ∧ ∃ e' : Event,
            GetEventById (editEvent [sampleGroupEvent2] (some ownerUser) hexId2
                sampleEditPayloadGroup sampleSched).store hexId2 = some e'
            ∧ e'.remindees = sampleGroupEvent2.remindees)
      ∧ ((sampleEditPayloadGroup.type = .SPECIFIC_DATES
            ∨ sampleEditPayloadGroup.type = .DOW) →
        (editEvent [sampleGroupEvent2] (some ownerUser) hexId2
            sampleEditPayloadGroup sampleSched).inviteEmailsSent = []
        ∧ ∃ e' : Event,
            GetEventById (editEvent [sampleGroupEvent2] (some ownerUser) hexId2
                sampleEditPayloadGroup sampleSched).store hexId2 = some e'
            ∧ e'.attendees = sampleGroupEvent2.attendees)) :=
  ⟨by decide, by decide,
    editEvent_reconciles_matching_type_only [sampleGroupEvent2] (some ownerUser) hexId2
      sampleEditPayloadGroup sampleSched sampleGroupEvent2 (by decide) (by decide)⟩

end Schej
